import Mathlib

/-!
Verification of `clone_org_repos.py`, a command-line utility that lists all
repositories of a GitHub organization through the paginated REST API, clones
the ones missing locally, syncs (fetch + pull) the local git directories, and
writes a run summary file.

The development is a shallow embedding of the script: each Python function is
translated to a Lean function over explicit data.  External effects are made
explicit:
  * the HTTP API is a function from (page, per_page) to a response;
  * each `subprocess.run` call is a `ProcResult`: either the process completed
    with an exit code and captured stderr, or the call raised an exception
    (`subprocess.TimeoutExpired`, spawn failure, ...) carrying the exception
    text;
  * the filesystem is the list of immediate children of the target folder;
  * every git subprocess invocation is recorded in an operation trace
    (`GitOp`), and the summary file is modelled as the string of all bytes
    written to it.
-/

/-- Outcome of one `subprocess.run` call: the child process completed with an
exit code (`returncode`) and captured stderr, or the call raised an exception
(timeout, spawn failure) whose text is `msg`. -/
inductive ProcResult where
  | completed (returncode : Nat) (stderr : String)
  | raised (msg : String)
deriving DecidableEq

/-- Did the process complete with exit code 0?  (`result.returncode == 0`). -/
def isExitZero : ProcResult → Bool
  | ProcResult.completed 0 _ => true
  | _ => false

/-- What `git fetch --all` and `git pull` would each do when invoked inside a
given repository directory.  The `pull` component is what the pull call would
return if it is reached; when `fetch` raises, the script's `except` block is
entered before pull runs at all. -/
structure SyncStep where
  fetch : ProcResult
  pull : ProcResult
deriving DecidableEq

/-- Classification of a sync attempt, mirroring the three summary lines
written by `sync_repositories`: `(synced)`, `(fetched only)`, `(sync failed)`. -/
inductive SyncOutcome where
  | synced
  | fetchedOnly
  | syncFailed
deriving DecidableEq

/-- Whether the outcome increments the `successful` counter (the `synced` and
`fetched only` branches) rather than the `failed` counter. -/
def SyncOutcome.isSuccess : SyncOutcome → Bool
  | SyncOutcome.synced => true
  | SyncOutcome.fetchedOnly => true
  | SyncOutcome.syncFailed => false

/-- The body of the per-repository loop of `sync_repositories` (lines
154-192 of the script).  Both subprocess calls sit inside one `try` block:
if fetch raises, pull is never attempted and the `except` handler counts the
repository as failed; if pull raises after fetch completed, the handler also
counts it as failed; when both complete, `pull.returncode == 0` gives
`synced`, else `fetch.returncode == 0` gives `fetched only`, else failure.
The second component records whether the pull subprocess was attempted. -/
def syncRepoOutcome (s : SyncStep) : SyncOutcome × Bool :=
  match s.fetch with
  | ProcResult.raised _ => (SyncOutcome.syncFailed, false)
  | ProcResult.completed fc _ =>
    match s.pull with
    | ProcResult.raised _ => (SyncOutcome.syncFailed, true)
    | ProcResult.completed pc _ =>
      if pc = 0 then (SyncOutcome.synced, true)
      else if fc = 0 then (SyncOutcome.fetchedOnly, true)
      else (SyncOutcome.syncFailed, true)

/-- A repository record as the script reads it from the API JSON: the fields
`name`, `full_name`, `clone_url` and `private` (renamed `isPrivate`, since
`private` is a Lean keyword). -/
structure RepoRecord where
  name : String
  full_name : String
  clone_url : String
  isPrivate : Bool
deriving DecidableEq

/-- An immediate child of the target folder, as seen by `iterdir()`:
its name, whether it is a directory, and whether it contains a `.git`
control subdirectory. -/
structure DirEntry where
  name : String
  isDir : Bool
  hasGit : Bool
deriving DecidableEq

/-- The script's test `d.is_dir() and (d / ".git").exists()` used both for
the observed local set and inside `sync_repositories`. -/
def isGitDir (d : DirEntry) : Bool := d.isDir && d.hasGit

/-- One git subprocess invocation, as recorded in the run's operation
trace: `git clone <url> <target>`, `git fetch --all` inside `dir`,
or `git pull` inside `dir`. -/
inductive GitOp where
  | clone (url : String) (target : String)
  | fetchAll (dir : String)
  | pull (dir : String)
deriving DecidableEq

/-- Is this trace entry a clone invocation? -/
def isCloneOp : GitOp → Bool
  | GitOp.clone _ _ => true
  | _ => false

/-- One HTTP response of the list-repositories endpoint: status code, body
text, and (for status 200) the decoded list of repository records. -/
structure HttpResponse where
  status : Nat
  body : String
  repos : List RepoRecord

/- ### Python string helpers, implemented over `List Char` so that they
evaluate inside the kernel. -/

/-- Python `str.lower` restricted to ASCII, applied characterwise. -/
def asciiLowerChar (c : Char) : Char :=
  if 'A' ≤ c ∧ c ≤ 'Z' then Char.ofNat (c.toNat + 32) else c

/-- Lower-cased character list of a string (for the `'rate limit' in
response.text.lower()` test). -/
def lowerChars (s : String) : List Char := s.data.map asciiLowerChar

/-- Does `pat` occur as a contiguous sublist of `l`?  (Python `in` on
strings.) -/
def charsContain (pat : List Char) : List Char → Bool
  | [] => pat = []
  | c :: rest => pat.isPrefixOf (c :: rest) || charsContain pat rest

/-- Python slicing `s[:n]`. -/
def pyTake (n : Nat) (s : String) : String := String.mk (s.data.take n)

/-- Python `str.strip()`: remove leading and trailing whitespace. -/
def pyStrip (s : String) : String :=
  String.mk (((s.data.dropWhile Char.isWhitespace).reverse.dropWhile Char.isWhitespace).reverse)

/-- Python truthiness of the optional token string: `None` and the empty
string are falsy. -/
def tokenTruthy : Option String → Bool
  | none => false
  | some t => t != ""

/- ### API client: `get_repositories` (lines 90-133) -/

/-- Console line `🔍 Fetching repositories for {org}...`. -/
def fetchingMsg (org : String) : String := "🔍 Fetching repositories for " ++ org ++ "..."

/-- Console line `❌ Organization '{org}' not found` printed on HTTP 404. -/
def orgNotFoundMsg (org : String) : String := "❌ Organization \x27" ++ org ++ "\x27 not found"

/-- Hint printed on 404 when no token is set. -/
def tokenHintMsg : String := "   💡 Try with a valid GitHub token if this is a private organization"

/-- Console line printed on HTTP 401. -/
def authFailedMsg : String := "❌ Authentication failed"

/-- Hint printed on HTTP 401. -/
def authHintMsg : String := "   💡 Check if your GitHub token is valid and has the right permissions"

/-- Console line printed on HTTP 403. -/
def forbiddenMsg : String := "❌ Access forbidden (403)"

/-- Hint printed on 403 when the body mentions a rate limit. -/
def rateHintMsg : String := "   💡 API rate limit exceeded. Try again later or use a valid GitHub token"

/-- Hint printed on 403 otherwise. -/
def forbiddenHintMsg : String := "   💡 Token may not have permission to access this organization"

/-- Console line printed on any other non-200 status. -/
def apiErrorMsg (code : Nat) : String := "❌ API error: " ++ toString code

/-- Console line `✅ Found {n} repositories` printed after the page loop. -/
def foundMsg (n : Nat) : String := "✅ Found " ++ toString n ++ " repositories"

/-- The `while True` page loop of `get_repositories`: request page `page`
with `per_page = 100`; on a non-200 status report the diagnosed cause and
return the empty list; on an empty page stop and return the accumulated
records; otherwise extend the accumulator and move to the next page.
`fuel` bounds the number of iterations (the Python loop has no bound; every
theorem below either supplies enough fuel or assumes the call finished). -/
def getReposLoop (api : Nat → Nat → HttpResponse) (org : String) (token : Option String) :
    Nat → Nat → List RepoRecord → Option (List RepoRecord × List String)
  | 0, _, _ => none
  | fuel + 1, page, acc =>
    let resp := api page 100
    if resp.status = 404 then
      some ([], orgNotFoundMsg org :: (if tokenTruthy token then [] else [tokenHintMsg]))
    else if resp.status = 401 then
      some ([], [authFailedMsg, authHintMsg])
    else if resp.status = 403 then
      some ([], [forbiddenMsg,
        if charsContain "rate limit".data (lowerChars resp.body) then rateHintMsg
        else forbiddenHintMsg])
    else if resp.status ≠ 200 then
      some ([], [apiErrorMsg resp.status, "   Response: " ++ pyTake 200 resp.body])
    else if resp.repos = [] then
      some (acc, [foundMsg acc.length])
    else
      getReposLoop api org token fuel (page + 1) (acc ++ resp.repos)

/-- `get_repositories(org_name, token)`: prints the fetching banner, runs the
page loop, and returns the fetched record list together with the console
lines printed, or `none` if `fuel` iterations did not reach a terminating
page. -/
def get_repositories (fuel : Nat) (api : Nat → Nat → HttpResponse) (org : String)
    (token : Option String) : Option (List RepoRecord × List String) :=
  match getReposLoop api org token fuel 1 [] with
  | none => none
  | some (repos, msgs) => some (repos, fetchingMsg org :: msgs)

/- ### Sync executor: `sync_repositories` (lines 135-203) -/

/-- Summary-file line written for one synced repository. -/
def syncLine (name : String) : SyncOutcome → String
  | SyncOutcome.synced => "✅ " ++ name ++ " (synced)\n"
  | SyncOutcome.fetchedOnly => "🔄 " ++ name ++ " (fetched only)\n"
  | SyncOutcome.syncFailed => "❌ " ++ name ++ " (sync failed)\n"

/-- The git invocations performed for one repository inside the sync loop:
fetch is always started; pull runs only if fetch did not raise. -/
def syncOpsOf (name : String) (s : SyncStep) : List GitOp :=
  match s.fetch with
  | ProcResult.raised _ => [GitOp.fetchAll name]
  | ProcResult.completed _ _ => [GitOp.fetchAll name, GitOp.pull name]

/-- Accumulated effect of one execution phase of the script on the counters,
the git operation trace, the set of directories it created, and the bytes it
appended to the summary file. -/
structure PhaseOut where
  successful : Nat
  failed : Nat
  ops : List GitOp
  newDirs : List DirEntry
  lines : String
deriving DecidableEq

/-- The `for repo_dir in master_folder.iterdir()` loop of
`sync_repositories`: entries that are directories containing `.git` get a
fetch/pull attempt, an outcome line, and a counter increment; every other
entry is skipped.  `world` gives the behaviour of the git subprocesses
inside a directory of a given name. -/
def syncLoop (world : String → SyncStep) : List DirEntry → PhaseOut
  | [] => ⟨0, 0, [], [], ""⟩
  | d :: rest =>
    let r := syncLoop world rest
    if isGitDir d then
      let out := (syncRepoOutcome (world d.name)).1
      { successful := (if out.isSuccess then 1 else 0) + r.successful
        failed := (if out.isSuccess then 0 else 1) + r.failed
        ops := syncOpsOf d.name (world d.name) ++ r.ops
        newDirs := r.newDirs
        lines := syncLine d.name out ++ r.lines }
    else r

/-- Block header `sync_repositories` appends before its loop. -/
def syncBlockHeader (ts : String) : String :=
  "\nSYNC OPERATION - " ++ ts ++ "\n" ++ "----------------------------------------\n"

/-- Block footer `sync_repositories` appends after its loop. -/
def syncBlockFooter (successful failed : Nat) : String :=
  "----------------------------------------\n" ++
    "SYNC SUMMARY: " ++ toString successful ++ " successful, " ++ toString failed ++
    " failed\n" ++ "========================================\n"

/-- `sync_repositories(master_folder)`: iterates over the folder's entries
*at call time* and fetches/pulls every git directory found, framing the
outcome lines with the sync block header and footer. -/
def sync_repositories (entries : List DirEntry) (world : String → SyncStep) (ts : String) :
    PhaseOut :=
  let r := syncLoop world entries
  { r with lines := syncBlockHeader ts ++ r.lines ++ syncBlockFooter r.successful r.failed }

/- ### Clone executor: `clone_repositories` (lines 205-268) -/

/-- Privacy marker used in console output and summary lines. -/
def privacyIndicator (isPriv : Bool) : String := if isPriv then "🔒" else "🔓"

/-- Line 223-226 of the script: `if token and (is_private or True)` — when a
(truthy) token is available it is embedded in the clone URL for every
repository, private or public; otherwise the record's `clone_url` is used. -/
def cloneUrlFor (token : Option String) (repo : RepoRecord) : String :=
  if tokenTruthy token && (repo.isPrivate || true) then
    "https://" ++ token.getD "" ++ "@github.com/" ++ repo.full_name ++ ".git"
  else
    repo.clone_url

/-- The diagnostic embedded in a failed clone's summary line:
`result.stderr.strip() if result.stderr else "Unknown error"`, truncated to
50 characters; for a raised exception, `str(e)[:50]`. -/
def cloneErrorDetail : ProcResult → String
  | ProcResult.completed _ stderr =>
    pyTake 50 (if stderr = "" then "Unknown error" else pyStrip stderr)
  | ProcResult.raised msg => pyTake 50 msg

/-- The `for i, repo in enumerate(repos, 1)` loop of `clone_repositories`:
each record gets exactly one `git clone` invocation; exit code 0 creates the
repository directory (with `.git`) and counts as successful, anything else
counts as failed with a truncated diagnostic in the summary line. -/
def cloneLoop (token : Option String) (world : String → ProcResult) :
    List RepoRecord → PhaseOut
  | [] => ⟨0, 0, [], [], ""⟩
  | repo :: rest =>
    let url := cloneUrlFor token repo
    let res := world repo.name
    let r := cloneLoop token world rest
    if isExitZero res then
      { successful := r.successful + 1
        failed := r.failed
        ops := GitOp.clone url repo.name :: r.ops
        newDirs := DirEntry.mk repo.name true true :: r.newDirs
        lines := "✅ " ++ privacyIndicator repo.isPrivate ++ " " ++ repo.name ++ "\n" ++ r.lines }
    else
      { successful := r.successful
        failed := r.failed + 1
        ops := GitOp.clone url repo.name :: r.ops
        newDirs := r.newDirs
        lines := "❌ " ++ privacyIndicator repo.isPrivate ++ " " ++ repo.name ++
          " (FAILED: " ++ cloneErrorDetail res ++ ")\n" ++ r.lines }

/-- Block header `clone_repositories` appends before its loop. -/
def cloneBlockHeader : String :=
  "\nCLONED REPOSITORIES:\n" ++ "----------------------------------------\n"

/-- Block footer `clone_repositories` appends after its loop. -/
def cloneBlockFooter (successful failed : Nat) : String :=
  "----------------------------------------\n" ++
    "SUMMARY: " ++ toString successful ++ " successful, " ++ toString failed ++
    " failed\n" ++ "========================================\n"

/-- `clone_repositories(repos, master_folder, token)`. -/
def clone_repositories (repos : List RepoRecord) (token : Option String)
    (world : String → ProcResult) : PhaseOut :=
  let r := cloneLoop token world repos
  { r with lines := cloneBlockHeader ++ r.lines ++ cloneBlockFooter r.successful r.failed }

/- ### `main` (lines 270-377) -/

/-- `get_repo_statistics(repos)`: total, public, and private counts. -/
structure RepoStats where
  total : Nat
  pubCount : Nat
  privCount : Nat
deriving DecidableEq

/-- `get_repo_statistics` (lines 28-37). -/
def get_repo_statistics (repos : List RepoRecord) : RepoStats :=
  { total := repos.length
    pubCount := repos.length - repos.countP (fun r => r.isPrivate)
    privCount := repos.countP (fun r => r.isPrivate) }

/-- The six header lines `main` writes after opening the summary file in
mode `"w"` (lines 292-298). -/
def summaryHeader (org ts : String) : String :=
  "========================================\n" ++ "CLONE OPERATION SUMMARY\n" ++
    "========================================\n" ++ "Organization: " ++ org ++ "\n" ++
    "Date/Time: " ++ ts ++ "\n" ++ "========================================\n"

/-- The repository-statistics block appended at lines 310-315. -/
def statsBlock (s : RepoStats) : String :=
  "REPOSITORY STATISTICS:\n" ++
    "🔓 Public repositories:  " ++ toString s.pubCount ++ "\n" ++
    "🔒 Private repositories: " ++ toString s.privCount ++ "\n" ++
    "📦 Total repositories:   " ++ toString s.total ++ "\n" ++
    "========================================\n"

/-- Final-status block appended in the pre-existing-repositories branch
(lines 354-358). -/
def finalStatusExisting (cloned total pub priv : Nat) : String :=
  "\nFINAL STATUS:\n" ++
    "📦 Local repositories: " ++ toString cloned ++ "/" ++ toString total ++ "\n" ++
    "🔓 Public: " ++ toString pub ++ " | 🔒 Private: " ++ toString priv ++ "\n" ++
    "========================================\n"

/-- Final-status block appended in the fresh-clone branch (lines 373-377). -/
def finalStatusFresh (cloned total pub priv : Nat) : String :=
  "\nFINAL STATUS:\n" ++
    "📦 Cloned: " ++ toString cloned ++ "/" ++ toString total ++ " repositories\n" ++
    "🔓 Public: " ++ toString pub ++ " | 🔒 Private: " ++ toString priv ++ "\n" ++
    "========================================\n"

/-- The external world one run interacts with: the API, the token, the
initial contents of the target folder, and the behaviour of the git clone
and fetch/pull subprocesses, keyed by repository name. -/
structure RunEnv where
  api : Nat → Nat → HttpResponse
  token : Option String
  localDirs : List DirEntry
  cloneWorld : String → ProcResult
  syncWorld : String → SyncStep

/-- Observable result of one run of `main`: console lines (the modelled
ones), the final bytes of `clone_summary.txt`, the ordered git operation
trace, the desired set returned by the API, the list handed to
`clone_repositories`, the four counters, and the final folder contents. -/
structure RunResult where
  messages : List String
  summary : String
  ops : List GitOp
  desired : List RepoRecord
  cloneList : List RepoRecord
  cloneSuccessful : Nat
  cloneFailed : Nat
  syncSuccessful : Nat
  syncFailed : Nat
  finalDirs : List DirEntry
deriving DecidableEq

/-- Lines 322-326 of `main`: the desired records whose name is not among
the pre-existing local git directories ("missing repositories"), in API
order. -/
def missingOf (env : RunEnv) (repos : List RepoRecord) : List RepoRecord :=
  repos.filter
    (fun r => !(((env.localDirs.filter isGitDir).map DirEntry.name).contains r.name))

/-- Lines 328-339 of `main`: `clone_repositories` runs only when the missing
list is non-empty; otherwise the clone phase contributes nothing. -/
def clonePhaseOf (env : RunEnv) (repos : List RepoRecord) : PhaseOut :=
  if missingOf env repos = [] then ⟨0, 0, [], [], ""⟩
  else clone_repositories (missingOf env repos) env.token env.cloneWorld

/-- The target folder contents after the clone phase: the pre-existing
entries plus one git directory per successfully cloned repository. -/
def dirsAfterOf (env : RunEnv) (repos : List RepoRecord) : List DirEntry :=
  env.localDirs ++ (clonePhaseOf env repos).newDirs

/-- The early return of `main` (lines 304-306): the API produced no
records, so nothing is executed; the summary file keeps only its header. -/
def emptyResult (env : RunEnv) (org ts : String) (repos : List RepoRecord)
    (apiMsgs : List String) : RunResult :=
  { messages := apiMsgs ++ ["❌ No repositories found in organization"]
    summary := summaryHeader org ts
    ops := []
    desired := repos
    cloneList := []
    cloneSuccessful := 0, cloneFailed := 0, syncSuccessful := 0, syncFailed := 0
    finalDirs := env.localDirs }

/-- The branch of `main` taken when the folder already holds at least one
git directory (lines 319-359): clone the missing records, then call
`sync_repositories` on the folder as it is *after* cloning. -/
def existingResult (env : RunEnv) (org ts : String) (repos : List RepoRecord)
    (apiMsgs : List String) : RunResult :=
  let stats := get_repo_statistics repos
  let c := clonePhaseOf env repos
  let s := sync_repositories (dirsAfterOf env repos) env.syncWorld ts
  { messages := apiMsgs
    summary := summaryHeader org ts ++
      (statsBlock stats ++ c.lines ++ s.lines ++
        finalStatusExisting ((dirsAfterOf env repos).filter isGitDir).length
          stats.total stats.pubCount stats.privCount)
    ops := c.ops ++ s.ops
    desired := repos
    cloneList := missingOf env repos
    cloneSuccessful := c.successful, cloneFailed := c.failed
    syncSuccessful := s.successful, syncFailed := s.failed
    finalDirs := dirsAfterOf env repos }

/-- The fresh-clone branch of `main` (lines 361-377): every desired record
is cloned and no sync phase runs. -/
def freshResult (env : RunEnv) (org ts : String) (repos : List RepoRecord)
    (apiMsgs : List String) : RunResult :=
  let stats := get_repo_statistics repos
  let c := clone_repositories repos env.token env.cloneWorld
  let dirsAfter := env.localDirs ++ c.newDirs
  { messages := apiMsgs
    summary := summaryHeader org ts ++
      (statsBlock stats ++ c.lines ++
        finalStatusFresh (dirsAfter.filter isGitDir).length
          stats.total stats.pubCount stats.privCount)
    ops := c.ops
    desired := repos
    cloneList := repos
    cloneSuccessful := c.successful, cloneFailed := c.failed
    syncSuccessful := 0, syncFailed := 0
    finalDirs := dirsAfter }

/-- Everything `main()` does after `get_repositories` returned
`(repos, apiMsgs)` (lines 304-377), dispatching on whether the desired set
is empty and whether any local git directory pre-exists. -/
def runBody (env : RunEnv) (org ts : String) (repos : List RepoRecord)
    (apiMsgs : List String) : RunResult :=
  if repos = [] then emptyResult env org ts repos apiMsgs
  else if env.localDirs.filter isGitDir = [] then freshResult env org ts repos apiMsgs
  else existingResult env org ts repos apiMsgs

set_option linter.unusedVariables false in
/-- `main()` (lines 270-377): `prevSummary` is the content
`clone_summary.txt` had before the run; line 292 opens the file with mode
`"w"`, which truncates it, so the parameter is discarded and the final
content always starts with the fresh header.  Returns `none` only when
`fuel` did not cover the API pagination loop. -/
def runMain (fuel : Nat) (env : RunEnv) (org ts prevSummary : String) : Option RunResult :=
  match get_repositories fuel env.api org env.token with
  | none => none
  | some (repos, apiMsgs) => some (runBody env org ts repos apiMsgs)

/- ### Projections of a finished run -/

/-- Operation trace of a finished run (empty if the run did not finish). -/
def runOps (o : Option RunResult) : List GitOp := (o.map RunResult.ops).getD []

/-- Final summary-file content of a finished run. -/
def runSummary (o : Option RunResult) : String := (o.map RunResult.summary).getD ""

/-- Total number of operation outcomes recorded over both phases. -/
def runTotalOutcomes (o : Option RunResult) : Nat :=
  (o.map (fun r => r.cloneSuccessful + r.cloneFailed + r.syncSuccessful + r.syncFailed)).getD 0

/-- The clone invocations contained in an operation trace, in order. -/
def cloneOpsIn (ops : List GitOp) : List GitOp := ops.filter isCloneOp

/- ### The reconciliation plan in the specification's words.

These two definitions follow the specification text (section 4.3, steps 4-5),
*not* the source; they exist to be compared against what the code computes. -/

/-- Spec step 4: `toClone = [r ∈ D : r.name ∉ L]`, preserving API order
(`L` = names of local git directories at plan time). -/
def specToClone (repos : List RepoRecord) (localDirs : List DirEntry) : List RepoRecord :=
  repos.filter (fun r => !(((localDirs.filter isGitDir).map DirEntry.name).contains r.name))

/-- Spec step 5: `toSync = L ∩ names(D)` at plan time. -/
def specToSyncNames (repos : List RepoRecord) (localDirs : List DirEntry) : List String :=
  ((localDirs.filter isGitDir).map DirEntry.name).filter
    (fun n => (repos.map RepoRecord.name).contains n)

/- ### Concrete worlds used to evaluate the model -/

/-- A public repository record named r1. -/
def r1rec : RepoRecord := ⟨"r1", "DeltaE/r1", "https://github.com/DeltaE/r1.git", false⟩

/-- A public repository record named r2. -/
def r2rec : RepoRecord := ⟨"r2", "DeltaE/r2", "https://github.com/DeltaE/r2.git", false⟩

/-- Fetch and pull both complete with exit code 0. -/
def okSync : SyncStep := ⟨ProcResult.completed 0 "", ProcResult.completed 0 ""⟩

/-- An API serving a fixed record list on page 1 and an empty page afterwards. -/
def listApi (repos : List RepoRecord) (page _perPage : Nat) : HttpResponse :=
  if page = 1 then ⟨200, "", repos⟩ else ⟨200, "", []⟩

/-- An API serving the fixed desired set `D` in consecutive chunks of the
requested page size: page `p` holds records `(p-1)*perPage` to
`p*perPage - 1`. -/
def chunkApi (D : List RepoRecord) (page perPage : Nat) : HttpResponse :=
  ⟨200, "", (D.drop ((page - 1) * perPage)).take perPage⟩

/-- A world where the desired set is `[r1]` and the target folder already
holds git directories `r1` and `x`; `x` has no record in the desired set. -/
def envOrphan : RunEnv :=
  { api := listApi [r1rec]
    token := none
    localDirs := [⟨"r1", true, true⟩, ⟨"x", true, true⟩]
    cloneWorld := fun _ => ProcResult.completed 0 ""
    syncWorld := fun _ => okSync }

/-- A world where the desired set is `[r1, r2]`, only `r1` exists locally,
and every git invocation succeeds: the run clones `r2` and then syncs. -/
def envCloneSync : RunEnv :=
  { api := listApi [r1rec, r2rec]
    token := none
    localDirs := [⟨"r1", true, true⟩]
    cloneWorld := fun _ => ProcResult.completed 0 ""
    syncWorld := fun _ => okSync }

/-- A world whose API answers 404 to everything (unknown organization). -/
def env404 : RunEnv :=
  { api := fun _ _ => ⟨404, "", []⟩
    token := none
    localDirs := []
    cloneWorld := fun _ => ProcResult.completed 0 ""
    syncWorld := fun _ => okSync }

/-- Scenario A of the specification: desired set `[r1]`, empty target
directory. -/
def envScenA : RunEnv :=
  { api := listApi [r1rec]
    token := none
    localDirs := []
    cloneWorld := fun _ => ProcResult.completed 0 ""
    syncWorld := fun _ => okSync }

/-- A concrete desired set of 150 pairwise distinct records. -/
def d150 : List RepoRecord :=
  (List.range 150).map (fun i => ⟨"repo" ++ toString i, "", "", false⟩)

/- ### Structural lemmas about the two executors -/

/-- The clone loop performs exactly one `git clone` per record, in order,
with the URL built by `cloneUrlFor`. -/
theorem cloneLoop_ops (token : Option String) (world : String → ProcResult)
    (repos : List RepoRecord) :
    (cloneLoop token world repos).ops =
      repos.map (fun r => GitOp.clone (cloneUrlFor token r) r.name) := by
  induction repos with
  | nil => rfl
  | cons r rs ih =>
    simp only [cloneLoop]
    split <;> simp [ih]

/-- Every record produces exactly one outcome in the clone loop. -/
theorem cloneLoop_counts (token : Option String) (world : String → ProcResult)
    (repos : List RepoRecord) :
    (cloneLoop token world repos).successful + (cloneLoop token world repos).failed =
      repos.length := by
  induction repos with
  | nil => rfl
  | cons r rs ih =>
    simp only [cloneLoop]
    split <;> simp only [List.length_cons] <;> omega

/-- A successfully cloned record leaves a git directory of its name. -/
theorem cloneLoop_newDirs_mem (token : Option String) (world : String → ProcResult)
    (repos : List RepoRecord) (r : RepoRecord) (hr : r ∈ repos)
    (hz : isExitZero (world r.name) = true) :
    DirEntry.mk r.name true true ∈ (cloneLoop token world repos).newDirs := by
  induction repos with
  | nil => cases hr
  | cons a rs ih =>
    rcases List.mem_cons.mp hr with h | h
    · subst h
      simp only [cloneLoop, hz, if_true]
      exact List.mem_cons_self _ _
    · simp only [cloneLoop]
      split
      · exact List.mem_cons_of_mem _ (ih h)
      · exact ih h

/-- Every directory the clone loop creates is a git directory named after
one of the records it was given. -/
theorem cloneLoop_newDirs_shape (token : Option String) (world : String → ProcResult)
    (repos : List RepoRecord) :
    ∀ d ∈ (cloneLoop token world repos).newDirs,
      isGitDir d = true ∧ d.name ∈ repos.map RepoRecord.name := by
  induction repos with
  | nil => intro d h; cases h
  | cons a rs ih =>
    intro d h
    simp only [cloneLoop] at h
    split at h
    · rcases List.mem_cons.mp h with h | h
      · subst h
        exact ⟨rfl, List.mem_cons_self _ _⟩
      · rcases ih d h with ⟨h1, h2⟩
        exact ⟨h1, List.mem_cons_of_mem _ h2⟩
    · rcases ih d h with ⟨h1, h2⟩
      exact ⟨h1, List.mem_cons_of_mem _ h2⟩

/-- The sync loop records one outcome per git directory it encounters. -/
theorem syncLoop_counts (world : String → SyncStep) (entries : List DirEntry) :
    (syncLoop world entries).successful + (syncLoop world entries).failed =
      (entries.filter isGitDir).length := by
  induction entries with
  | nil => rfl
  | cons d rest ih =>
    by_cases hg : isGitDir d
    · simp only [syncLoop, hg, if_true, List.filter_cons_of_pos hg, List.length_cons]
      split <;> omega
    · simp only [syncLoop, hg, if_false, Bool.false_eq_true,
        List.filter_cons_of_neg (by simpa using hg)]
      exact ih

/-- The sync loop never invokes `git clone`. -/
theorem syncLoop_no_clone (world : String → SyncStep) (entries : List DirEntry) :
    ∀ op ∈ (syncLoop world entries).ops, isCloneOp op = false := by
  induction entries with
  | nil => intro op h; cases h
  | cons d rest ih =>
    intro op h
    simp only [syncLoop] at h
    split at h
    · rcases List.mem_append.mp h with h | h
      · unfold syncOpsOf at h
        split at h <;> rcases List.mem_cons.mp h with h | h <;>
          first
            | (subst h; rfl)
            | (rcases List.mem_cons.mp h with h | h
               · subst h; rfl
               · cases h)
            | cases h
      · exact ih op h
    · exact ih op h

/-- Every git directory in the scanned entries gets a `git fetch --all`
invocation. -/
theorem syncLoop_fetch_mem (world : String → SyncStep) (entries : List DirEntry)
    (d : DirEntry) (hd : d ∈ entries) (hg : isGitDir d = true) :
    GitOp.fetchAll d.name ∈ (syncLoop world entries).ops := by
  induction entries with
  | nil => cases hd
  | cons a rest ih =>
    rcases List.mem_cons.mp hd with h | h
    · subst h
      simp only [syncLoop, hg, if_true]
      apply List.mem_append_left
      unfold syncOpsOf
      split <;> simp
    · simp only [syncLoop]
      split
      · exact List.mem_append_right _ (ih h)
      · exact ih h

/- ### Dispatch lemmas for `runMain` and `get_repositories` -/

/-- A run whose API call finished is `runBody` applied to its result. -/
theorem runMain_eq (fuel : Nat) (env : RunEnv) (org ts prev : String)
    (repos : List RepoRecord) (msgs : List String)
    (hapi : get_repositories fuel env.api org env.token = some (repos, msgs)) :
    runMain fuel env org ts prev = some (runBody env org ts repos msgs) := by
  unfold runMain
  rw [hapi]

/-- With a non-empty desired set and no pre-existing git directory, the run
takes the fresh-clone branch. -/
theorem runBody_fresh (env : RunEnv) (org ts : String) (repos : List RepoRecord)
    (msgs : List String) (hne : repos ≠ [])
    (hloc : env.localDirs.filter isGitDir = []) :
    runBody env org ts repos msgs = freshResult env org ts repos msgs := by
  unfold runBody
  rw [if_neg hne, if_pos hloc]

/-- With a non-empty desired set and at least one pre-existing git
directory, the run takes the clone-then-sync branch. -/
theorem runBody_existing (env : RunEnv) (org ts : String) (repos : List RepoRecord)
    (msgs : List String) (hne : repos ≠ [])
    (hloc : env.localDirs.filter isGitDir ≠ []) :
    runBody env org ts repos msgs = existingResult env org ts repos msgs := by
  unfold runBody
  rw [if_neg hne, if_neg hloc]

/-- One unfolding of the page loop when the requested page has status 200
and records on it. -/
theorem getReposLoop_cont (api : Nat → Nat → HttpResponse) (org : String)
    (token : Option String) (fuel page : Nat) (acc : List RepoRecord)
    (h200 : (api page 100).status = 200) (hne : (api page 100).repos ≠ []) :
    getReposLoop api org token (fuel + 1) page acc =
      getReposLoop api org token fuel (page + 1) (acc ++ (api page 100).repos) := by
  simp only [getReposLoop]
  simp [h200, hne]

/-- One unfolding of the page loop when the requested page is empty. -/
theorem getReposLoop_stop (api : Nat → Nat → HttpResponse) (org : String)
    (token : Option String) (fuel page : Nat) (acc : List RepoRecord)
    (h200 : (api page 100).status = 200) (hemp : (api page 100).repos = []) :
    getReposLoop api org token (fuel + 1) page acc = some (acc, [foundMsg acc.length]) := by
  simp only [getReposLoop]
  simp [h200, hemp]

/-- One unfolding of the page loop on HTTP 404. -/
theorem getReposLoop_notFound (api : Nat → Nat → HttpResponse) (org : String)
    (token : Option String) (fuel page : Nat) (acc : List RepoRecord)
    (h : (api page 100).status = 404) :
    getReposLoop api org token (fuel + 1) page acc =
      some ([], orgNotFoundMsg org :: (if tokenTruthy token then [] else [tokenHintMsg])) := by
  simp only [getReposLoop]
  simp [h]

/- ### Lemmas about the clone phase of the pre-existing branch -/

/-- The clone phase invokes one `git clone` per missing record, in order. -/
theorem clonePhaseOf_ops (env : RunEnv) (repos : List RepoRecord) :
    (clonePhaseOf env repos).ops =
      (missingOf env repos).map (fun r => GitOp.clone (cloneUrlFor env.token r) r.name) := by
  unfold clonePhaseOf
  split
  · rename_i h; rw [h]; rfl
  · exact cloneLoop_ops _ _ _

/-- The clone phase records one outcome per missing record. -/
theorem clonePhaseOf_counts (env : RunEnv) (repos : List RepoRecord) :
    (clonePhaseOf env repos).successful + (clonePhaseOf env repos).failed =
      (missingOf env repos).length := by
  unfold clonePhaseOf
  split
  · rename_i h; rw [h]; rfl
  · exact cloneLoop_counts _ _ _

/-- A successfully cloned missing record leaves a git directory. -/
theorem clonePhaseOf_newDirs_mem (env : RunEnv) (repos : List RepoRecord)
    (r : RepoRecord) (hr : r ∈ missingOf env repos)
    (hz : isExitZero (env.cloneWorld r.name) = true) :
    DirEntry.mk r.name true true ∈ (clonePhaseOf env repos).newDirs := by
  unfold clonePhaseOf
  split
  · rename_i h; rw [h] at hr; cases hr
  · exact cloneLoop_newDirs_mem _ _ _ _ hr hz

/- ### Claim theorems -/

/-- C6 counterexample: a repository whose fetch exits 0 and whose pull
raises an exception (e.g. `subprocess.TimeoutExpired`) is recorded as a sync
failure by the `except` handler, although the claimed classification
("otherwise if fetch exited 0 the outcome is fetched-only and still counted
successful; only when both fetch and pull fail is the repository counted as
failed") requires a successful fetched-only outcome here. -/
theorem sync_priority_counterexample :
    (SyncStep.mk (ProcResult.completed 0 "") (ProcResult.raised "timeout")).fetch =
        ProcResult.completed 0 ""
      ∧ (syncRepoOutcome
            (SyncStep.mk (ProcResult.completed 0 "") (ProcResult.raised "timeout"))).1 =
          SyncOutcome.syncFailed
      ∧ SyncOutcome.isSuccess
            (syncRepoOutcome
              (SyncStep.mk (ProcResult.completed 0 "") (ProcResult.raised "timeout"))).1 =
          false
      ∧ SyncOutcome.syncFailed ≠ SyncOutcome.fetchedOnly := by
  decide

/-- C6 (amended): when both subprocesses complete with an exit code, the
priority order is exactly as claimed — pull exit 0 gives synced/successful;
otherwise fetch exit 0 gives fetched-only/successful; otherwise the
repository is counted failed.  But when pull raises an exception the
repository is counted failed even if fetch exited 0. -/
theorem sync_priority_amended :
    (∀ fc pc ef ep,
        syncRepoOutcome ⟨ProcResult.completed fc ef, ProcResult.completed pc ep⟩ =
          (if pc = 0 then SyncOutcome.synced
           else if fc = 0 then SyncOutcome.fetchedOnly
           else SyncOutcome.syncFailed, true))
    ∧ (∀ fc pc ef ep,
        SyncOutcome.isSuccess
            (syncRepoOutcome ⟨ProcResult.completed fc ef, ProcResult.completed pc ep⟩).1 =
          (decide (pc = 0) || decide (fc = 0)))
    ∧ (∀ fc ef m,
        syncRepoOutcome ⟨ProcResult.completed fc ef, ProcResult.raised m⟩ =
          (SyncOutcome.syncFailed, true)) := by
  refine ⟨?_, ?_, ?_⟩
  · intro fc pc ef ep
    by_cases h : pc = 0 <;> by_cases h2 : fc = 0 <;> simp [syncRepoOutcome, h, h2]
  · intro fc pc ef ep
    by_cases h : pc = 0 <;> by_cases h2 : fc = 0 <;>
      simp [syncRepoOutcome, SyncOutcome.isSuccess, h, h2]
  · intro fc ef m
    rfl

/-- C10 counterexample: when fetch raises an exception (e.g. a timeout),
the `except` handler fires before pull is ever run — the pull step is *not*
attempted, refuting "the pull step is always attempted even when the
preceding fetch-all step fails". -/
theorem pull_attempt_counterexample :
    (syncRepoOutcome
        (SyncStep.mk (ProcResult.raised "timeout") (ProcResult.completed 0 ""))).2 = false
      ∧ (syncRepoOutcome
            (SyncStep.mk (ProcResult.raised "timeout") (ProcResult.completed 0 ""))).1 =
          SyncOutcome.syncFailed := by
  decide

/-- C10 (amended): pull is attempted whenever fetch *completes* with an
exit code, zero or not, and a pull exit of 0 then classifies the repository
as synced regardless of fetch's exit code; but when fetch raises an
exception the sync of that repository aborts as failed without attempting
pull. -/
theorem pull_attempt_amended :
    (∀ fc ef p, (syncRepoOutcome ⟨ProcResult.completed fc ef, p⟩).2 = true)
    ∧ (∀ fc ef ep,
        (syncRepoOutcome ⟨ProcResult.completed fc ef, ProcResult.completed 0 ep⟩).1 =
          SyncOutcome.synced)
    ∧ (∀ m p, syncRepoOutcome ⟨ProcResult.raised m, p⟩ = (SyncOutcome.syncFailed, false)) := by
  refine ⟨?_, ?_, ?_⟩
  · intro fc ef p
    cases p with
    | completed pc ep =>
      by_cases h : pc = 0 <;> by_cases h2 : fc = 0 <;> simp [syncRepoOutcome, h, h2]
    | raised m => rfl
  · intro fc ef ep
    simp [syncRepoOutcome]
  · intro m p
    rfl

/-- C9: if a (truthy) credential token is supplied, the clone URL embeds
the token for every repository — the script's condition is
`token and (is_private or True)`, so privacy is irrelevant — and with no
token the record's own `clone_url` is used. -/
theorem clone_url_token_policy (t : String) (r : RepoRecord) (ht : t ≠ "") :
    cloneUrlFor (some t) r = "https://" ++ t ++ "@github.com/" ++ r.full_name ++ ".git"
      ∧ cloneUrlFor none r = r.clone_url := by
  constructor
  · simp [cloneUrlFor, tokenTruthy, ht]
  · rfl

/-- C9 witness: the token policy evaluated for a concrete token and a
concrete public repository. -/
theorem clone_url_token_policy_witness :
    cloneUrlFor (some "tok") r1rec =
        "https://" ++ "tok" ++ "@github.com/" ++ r1rec.full_name ++ ".git"
      ∧ cloneUrlFor none r1rec = r1rec.clone_url :=
  clone_url_token_policy "tok" r1rec (by decide)

/-- C5: `get_repositories` pages through the API with the fixed page size
100 and stops at the first empty page; for a desired set `D` of 150 records
served in consecutive chunks (a full page of 100, then 50, then an empty
page), it returns exactly the list `D` itself — 150 records, the original
order preserved, and hence no duplicates beyond those of `D`. -/
theorem get_repositories_pagination (D : List RepoRecord) (hD : D.length = 150) :
    (chunkApi D 1 100).repos = D.take 100
      ∧ (chunkApi D 2 100).repos.length = 50
      ∧ get_repositories 10 (chunkApi D) "DeltaE" none =
          some (D, [fetchingMsg "DeltaE", foundMsg 150]) := by
  have hDne : D ≠ [] := by
    intro h
    rw [h] at hD
    simp at hD
  have hpage1 : (chunkApi D 1 100).repos = D.take 100 := by
    show (D.drop 0).take 100 = D.take 100
    rw [List.drop_zero]
  have hpage2 : (chunkApi D 2 100).repos = D.drop 100 := by
    show (D.drop 100).take 100 = D.drop 100
    exact List.take_of_length_le (by simp [hD])
  have hpage3 : (chunkApi D 3 100).repos = [] := by
    show (D.drop 200).take 100 = []
    rw [List.drop_eq_nil_of_le (by omega)]
    rfl
  refine ⟨hpage1, by rw [hpage2]; simp [hD], ?_⟩
  have hne1 : (chunkApi D 1 100).repos ≠ [] := by
    rw [hpage1]
    intro h
    rcases List.take_eq_nil_iff.mp h with h | h
    · exact absurd h (by norm_num)
    · exact hDne h
  have hne2 : (chunkApi D 2 100).repos ≠ [] := by
    rw [hpage2]
    intro h
    have := congrArg List.length h
    simp [hD] at this
  have e1 : getReposLoop (chunkApi D) "DeltaE" none 10 1 [] =
      getReposLoop (chunkApi D) "DeltaE" none 9 2 ([] ++ (chunkApi D 1 100).repos) :=
    getReposLoop_cont (chunkApi D) "DeltaE" none 9 1 [] rfl hne1
  have e2 : getReposLoop (chunkApi D) "DeltaE" none 9 2 ([] ++ (chunkApi D 1 100).repos) =
      getReposLoop (chunkApi D) "DeltaE" none 8 3
        (([] ++ (chunkApi D 1 100).repos) ++ (chunkApi D 2 100).repos) :=
    getReposLoop_cont (chunkApi D) "DeltaE" none 8 2 _ rfl hne2
  have e3 : getReposLoop (chunkApi D) "DeltaE" none 8 3
      (([] ++ (chunkApi D 1 100).repos) ++ (chunkApi D 2 100).repos) =
      some ((([] ++ (chunkApi D 1 100).repos) ++ (chunkApi D 2 100).repos),
        [foundMsg (([] ++ (chunkApi D 1 100).repos) ++ (chunkApi D 2 100).repos).length]) :=
    getReposLoop_stop (chunkApi D) "DeltaE" none 7 3 _ rfl hpage3
  have hacc : ([] ++ (chunkApi D 1 100).repos) ++ (chunkApi D 2 100).repos = D := by
    rw [hpage1, hpage2, List.nil_append, List.take_append_drop]
  unfold get_repositories
  rw [e1, e2, e3, hacc, hD]

/-- A string is a byte prefix of itself followed by anything. -/
theorem data_prefix_append (s t : String) : s.data <+: (s ++ t).data := by
  rw [String.data_append]
  exact List.prefix_append _ _

/-- C7: whenever `get_repositories` comes back empty — any diagnosed API
failure, HTTP 404 included, returns the empty list — the run terminates
with an empty operation trace and zero recorded outcomes in both phases,
the summary file contains exactly its header, and the local folder is
untouched; when the failure was a 404, the reason
`❌ Organization '...' not found` is among the reported console lines. -/
theorem api_failure_zero_operations (fuel : Nat) (env : RunEnv) (org ts prev : String)
    (msgs : List String)
    (hapi : get_repositories fuel env.api org env.token = some ([], msgs)) :
    ∃ res, runMain fuel env org ts prev = some res
      ∧ res.ops = []
      ∧ res.cloneSuccessful = 0 ∧ res.cloneFailed = 0
      ∧ res.syncSuccessful = 0 ∧ res.syncFailed = 0
      ∧ res.summary = summaryHeader org ts
      ∧ res.finalDirs = env.localDirs
      ∧ ((env.api 1 100).status = 404 → orgNotFoundMsg org ∈ res.messages) := by
  refine ⟨emptyResult env org ts [] msgs, runMain_eq fuel env org ts prev _ _ hapi,
    rfl, rfl, rfl, rfl, rfl, rfl, rfl, ?_⟩
  intro h404
  cases fuel with
  | zero => exact Option.noConfusion hapi
  | succ f =>
    have heq : get_repositories (f + 1) env.api org env.token =
        some ([], fetchingMsg org :: orgNotFoundMsg org ::
          (if tokenTruthy env.token then [] else [tokenHintMsg])) := by
      unfold get_repositories
      rw [getReposLoop_notFound env.api org env.token f 1 [] h404]
    rw [hapi] at heq
    have hmsgs : msgs = fetchingMsg org :: orgNotFoundMsg org ::
        (if tokenTruthy env.token then [] else [tokenHintMsg]) :=
      congrArg Prod.snd (Option.some.inj heq)
    simp [emptyResult, hmsgs]

/-- C7 witness: the 404 behaviour evaluated in a concrete world whose API
answers 404 to every request. -/
theorem api_failure_zero_operations_witness :
    ∃ res, runMain 10 env404 "DeltaE" "ts" "" = some res
      ∧ res.ops = []
      ∧ res.cloneSuccessful = 0 ∧ res.cloneFailed = 0
      ∧ res.syncSuccessful = 0 ∧ res.syncFailed = 0
      ∧ res.summary = summaryHeader "DeltaE" "ts"
      ∧ res.finalDirs = env404.localDirs
      ∧ ((env404.api 1 100).status = 404 → orgNotFoundMsg "DeltaE" ∈ res.messages) :=
  api_failure_zero_operations 10 env404 "DeltaE" "ts" ""
    [fetchingMsg "DeltaE", orgNotFoundMsg "DeltaE", tokenHintMsg] (by decide)

/-- C8: the clone list the run computes is exactly the desired records
whose name has no pre-existing local git directory, in API order (the
spec's `toClone`), and the clone invocations of the trace are exactly one
`git clone` per record of that list, in the same order — so for Scenario A
(desired `[r1]`, empty folder) the plan is `toClone = [r1]` with a single
clone invocation. -/
theorem clone_plan_filter (fuel : Nat) (env : RunEnv) (org ts prev : String)
    (repos : List RepoRecord) (msgs : List String)
    (hapi : get_repositories fuel env.api org env.token = some (repos, msgs))
    (hne : repos ≠ []) :
    ∃ res, runMain fuel env org ts prev = some res
      ∧ res.cloneList = specToClone repos env.localDirs
      ∧ cloneOpsIn res.ops =
          res.cloneList.map (fun r => GitOp.clone (cloneUrlFor env.token r) r.name) := by
  by_cases hloc : env.localDirs.filter isGitDir = []
  · refine ⟨freshResult env org ts repos msgs, ?_, ?_, ?_⟩
    · rw [runMain_eq fuel env org ts prev repos msgs hapi,
        runBody_fresh env org ts repos msgs hne hloc]
    · show repos = specToClone repos env.localDirs
      unfold specToClone
      rw [hloc]
      symm
      apply List.filter_eq_self.mpr
      intro r _
      rfl
    · show cloneOpsIn (cloneLoop env.token env.cloneWorld repos).ops =
        repos.map (fun r => GitOp.clone (cloneUrlFor env.token r) r.name)
      rw [cloneLoop_ops]
      apply List.filter_eq_self.mpr
      intro op hop
      rcases List.mem_map.mp hop with ⟨r, _, rfl⟩
      rfl
  · refine ⟨existingResult env org ts repos msgs, ?_, rfl, ?_⟩
    · rw [runMain_eq fuel env org ts prev repos msgs hapi,
        runBody_existing env org ts repos msgs hne hloc]
    · show cloneOpsIn ((clonePhaseOf env repos).ops ++
          (sync_repositories (dirsAfterOf env repos) env.syncWorld ts).ops) =
        (missingOf env repos).map (fun r => GitOp.clone (cloneUrlFor env.token r) r.name)
      unfold cloneOpsIn
      rw [List.filter_append]
      have h1 : (clonePhaseOf env repos).ops.filter isCloneOp =
          (missingOf env repos).map (fun r => GitOp.clone (cloneUrlFor env.token r) r.name) := by
        rw [clonePhaseOf_ops]
        apply List.filter_eq_self.mpr
        intro op hop
        rcases List.mem_map.mp hop with ⟨r, _, rfl⟩
        rfl
      have h2 : (sync_repositories (dirsAfterOf env repos) env.syncWorld ts).ops.filter
          isCloneOp = [] := by
        rw [List.filter_eq_nil_iff]
        intro op hop
        have := syncLoop_no_clone env.syncWorld (dirsAfterOf env repos) op hop
        simp [this]
      rw [h1, h2, List.append_nil]

/-- C8 witness: Scenario A — desired set `[r1]`, empty target folder. -/
theorem clone_plan_filter_witness :
    ∃ res, runMain 10 envScenA "DeltaE" "ts" "" = some res
      ∧ res.cloneList = specToClone [r1rec] envScenA.localDirs
      ∧ cloneOpsIn res.ops =
          res.cloneList.map (fun r => GitOp.clone (cloneUrlFor envScenA.token r) r.name) :=
  clone_plan_filter 10 envScenA "DeltaE" "ts" "" [r1rec]
    [fetchingMsg "DeltaE", foundMsg 1] (by decide) (by decide)

/-- C1 counterexample: with desired set `[r1]` and local git directories
`r1` and `x` (where `x` has no record in the desired set), the run invokes
`git fetch --all` and `git pull` *inside `x`* — refuting the claim that a
local directory absent from the desired set is "not synced (no fetch or
pull is invoked inside it)". -/
theorem untouched_orphan_counterexample :
    "x" ∈ envOrphan.localDirs.map DirEntry.name
      ∧ "x" ∉ [r1rec].map RepoRecord.name
      ∧ GitOp.fetchAll "x" ∈ runOps (runMain 10 envOrphan "DeltaE" "ts" "")
      ∧ GitOp.pull "x" ∈ runOps (runMain 10 envOrphan "DeltaE" "ts" "") := by
  decide

/-- C1 (amended): a local git directory whose name has no record in the
desired set is never a clone target and is still present when the run ends
(the script has no delete operation at all), but it is *not* exempt from
syncing: whenever the desired set is non-empty the sync phase — which scans
every git directory on disk, ignoring the desired set — invokes
`git fetch --all` inside it. -/
theorem orphan_amended (fuel : Nat) (env : RunEnv) (org ts prev : String)
    (repos : List RepoRecord) (msgs : List String) (d : DirEntry)
    (hapi : get_repositories fuel env.api org env.token = some (repos, msgs))
    (hd : d ∈ env.localDirs) (hgit : isGitDir d = true)
    (horphan : d.name ∉ repos.map RepoRecord.name) :
    ∃ res, runMain fuel env org ts prev = some res
      ∧ (∀ u n, GitOp.clone u n ∈ res.ops → n ≠ d.name)
      ∧ d ∈ res.finalDirs
      ∧ (repos ≠ [] → GitOp.fetchAll d.name ∈ res.ops) := by
  have hloc : env.localDirs.filter isGitDir ≠ [] := by
    intro h
    have hmem : d ∈ env.localDirs.filter isGitDir := List.mem_filter.mpr ⟨hd, hgit⟩
    rw [h] at hmem
    cases hmem
  by_cases hne : repos = []
  · subst hne
    refine ⟨emptyResult env org ts [] msgs, runMain_eq fuel env org ts prev _ _ hapi,
      ?_, hd, ?_⟩
    · intro u n hop
      cases hop
    · intro h
      exact absurd rfl h
  · refine ⟨existingResult env org ts repos msgs, ?_, ?_, ?_, ?_⟩
    · rw [runMain_eq fuel env org ts prev repos msgs hapi,
        runBody_existing env org ts repos msgs hne hloc]
    · intro u n hop hcontra
      rcases List.mem_append.mp hop with h | h
      · rw [clonePhaseOf_ops] at h
        rcases List.mem_map.mp h with ⟨r, hr, heq⟩
        apply horphan
        rw [← hcontra]
        have hn : n = r.name := by
          cases heq
          rfl
        rw [hn]
        exact List.mem_map_of_mem _ (List.mem_of_mem_filter hr)
      · have := syncLoop_no_clone env.syncWorld (dirsAfterOf env repos) _ h
        simp [isCloneOp] at this
    · exact List.mem_append_left _ hd
    · intro _
      exact List.mem_append_right _
        (syncLoop_fetch_mem env.syncWorld (dirsAfterOf env repos) d
          (List.mem_append_left _ hd) hgit)

/-- C1 witness: the amended statement evaluated in the orphan world. -/
theorem orphan_amended_witness :
    ∃ res, runMain 10 envOrphan "DeltaE" "ts" "" = some res
      ∧ (∀ u n, GitOp.clone u n ∈ res.ops → n ≠ "x")
      ∧ DirEntry.mk "x" true true ∈ res.finalDirs
      ∧ ([r1rec] ≠ ([] : List RepoRecord) → GitOp.fetchAll "x" ∈ res.ops) :=
  orphan_amended 10 envOrphan "DeltaE" "ts" "" [r1rec]
    [fetchingMsg "DeltaE", foundMsg 1] ⟨"x", true, true⟩
    (by decide) (by decide) (by decide) (by decide)

/-- C2 counterexample: with desired set `[r1, r2]` and only `r1` present
locally, the run clones `r2` and then fetches and pulls inside the fresh
`r2` clone in the same run — `sync_repositories` re-scans the folder with
`iterdir()` *after* cloning instead of operating on the pre-clone set —
refuting "no repository cloned during that run is also synced in the same
run". -/
theorem preclone_capture_counterexample :
    GitOp.clone (cloneUrlFor none r2rec) "r2" ∈ runOps (runMain 10 envCloneSync "DeltaE" "ts" "")
      ∧ GitOp.fetchAll "r2" ∈ runOps (runMain 10 envCloneSync "DeltaE" "ts" "")
      ∧ GitOp.pull "r2" ∈ runOps (runMain 10 envCloneSync "DeltaE" "ts" "") := by
  decide

/-- C2 (amended): cloned repositories escape re-syncing only in a
fresh-clone run (no pre-existing git directory), where the sync phase is
skipped entirely and no fetch or pull happens at all; in a run with
pre-existing git directories, every repository successfully cloned during
the run is fetched again by the sync phase of the same run, because the
sync loop re-scans the folder after cloning. -/
theorem cloned_then_synced_amended (fuel : Nat) (env : RunEnv) (org ts prev : String)
    (repos : List RepoRecord) (msgs : List String)
    (hapi : get_repositories fuel env.api org env.token = some (repos, msgs))
    (hne : repos ≠ []) :
    ∃ res, runMain fuel env org ts prev = some res
      ∧ (env.localDirs.filter isGitDir = [] →
          ∀ n, GitOp.fetchAll n ∉ res.ops ∧ GitOp.pull n ∉ res.ops)
      ∧ (env.localDirs.filter isGitDir ≠ [] →
          ∀ r ∈ res.cloneList, isExitZero (env.cloneWorld r.name) = true →
            GitOp.fetchAll r.name ∈ res.ops) := by
  by_cases hloc : env.localDirs.filter isGitDir = []
  · refine ⟨freshResult env org ts repos msgs, ?_, ?_, ?_⟩
    · rw [runMain_eq fuel env org ts prev repos msgs hapi,
        runBody_fresh env org ts repos msgs hne hloc]
    · intro _ n
      constructor
      · intro hmem
        have hmem2 : GitOp.fetchAll n ∈ (cloneLoop env.token env.cloneWorld repos).ops := hmem
        rw [cloneLoop_ops] at hmem2
        rcases List.mem_map.mp hmem2 with ⟨r, _, heq⟩
        exact GitOp.noConfusion heq
      · intro hmem
        have hmem2 : GitOp.pull n ∈ (cloneLoop env.token env.cloneWorld repos).ops := hmem
        rw [cloneLoop_ops] at hmem2
        rcases List.mem_map.mp hmem2 with ⟨r, _, heq⟩
        exact GitOp.noConfusion heq
    · intro h
      exact absurd hloc h
  · refine ⟨existingResult env org ts repos msgs, ?_, ?_, ?_⟩
    · rw [runMain_eq fuel env org ts prev repos msgs hapi,
        runBody_existing env org ts repos msgs hne hloc]
    · intro h
      exact absurd h hloc
    · intro _ r hr hz
      apply List.mem_append_right
      exact syncLoop_fetch_mem env.syncWorld (dirsAfterOf env repos)
        (DirEntry.mk r.name true true)
        (List.mem_append_right _ (clonePhaseOf_newDirs_mem env repos r hr hz)) rfl

/-- C2 witness: the amended statement evaluated in the clone-then-sync
world. -/
theorem cloned_then_synced_amended_witness :
    ∃ res, runMain 10 envCloneSync "DeltaE" "ts" "" = some res
      ∧ (envCloneSync.localDirs.filter isGitDir = [] →
          ∀ n, GitOp.fetchAll n ∉ res.ops ∧ GitOp.pull n ∉ res.ops)
      ∧ (envCloneSync.localDirs.filter isGitDir ≠ [] →
          ∀ r ∈ res.cloneList, isExitZero (envCloneSync.cloneWorld r.name) = true →
            GitOp.fetchAll r.name ∈ res.ops) :=
  cloned_then_synced_amended 10 envCloneSync "DeltaE" "ts" "" [r1rec, r2rec]
    [fetchingMsg "DeltaE", foundMsg 2] (by decide) (by decide)

/-- C3 counterexample: a run started while `clone_summary.txt` holds the
byte `X` ends with a summary file in which `X` occurs nowhere — line 292
opens the file with mode `"w"`, truncating it — refuting "after any run,
every byte of content the summary file held before the run is still
present". -/
theorem append_only_counterexample :
    charsContain "X".data (runSummary (runMain 10 env404 "DeltaE" "2026-10-12" "X")).data =
      false := by
  decide

/-- C3 (amended): the summary file is append-only only *within* one run:
each run truncates the file on open (its final content is independent of
whatever the file held before the run) and then only appends, so the
freshly written header is a prefix of the final content. -/
theorem summary_truncate_then_append (fuel : Nat) (env : RunEnv) (org ts p q : String)
    (repos : List RepoRecord) (msgs : List String)
    (hapi : get_repositories fuel env.api org env.token = some (repos, msgs)) :
    ∃ res, runMain fuel env org ts p = some res
      ∧ runMain fuel env org ts q = some res
      ∧ (summaryHeader org ts).data <+: res.summary.data := by
  refine ⟨runBody env org ts repos msgs, runMain_eq fuel env org ts p repos msgs hapi,
    runMain_eq fuel env org ts q repos msgs hapi, ?_⟩
  unfold runBody
  by_cases hne : repos = []
  · rw [if_pos hne]
    exact List.prefix_rfl
  · rw [if_neg hne]
    by_cases hloc : env.localDirs.filter isGitDir = []
    · rw [if_pos hloc]
      exact data_prefix_append _ _
    · rw [if_neg hloc]
      exact data_prefix_append _ _

/-- C3 witness: the amended statement evaluated in the 404 world, with
previous summary contents `X` and the empty string. -/
theorem summary_truncate_then_append_witness :
    ∃ res, runMain 10 env404 "DeltaE" "ts" "X" = some res
      ∧ runMain 10 env404 "DeltaE" "ts" "" = some res
      ∧ (summaryHeader "DeltaE" "ts").data <+: res.summary.data :=
  summary_truncate_then_append 10 env404 "DeltaE" "ts" "X" "" []
    [fetchingMsg "DeltaE", orgNotFoundMsg "DeltaE", tokenHintMsg] (by decide)

/-- C4 counterexample: desired set `[r1, r2]` with only `r1` present
locally gives plan-time `toClone = [r2]` and `toSync = [r1]`, so the
claimed total is `1 + 1 = 2`; but the run records 3 outcomes — one clone
plus two syncs, because the sync phase re-scans the folder and also syncs
the freshly cloned `r2`. -/
theorem outcome_total_counterexample :
    runTotalOutcomes (runMain 10 envCloneSync "DeltaE" "ts" "") = 3
      ∧ (specToClone [r1rec, r2rec] envCloneSync.localDirs).length = 1
      ∧ (specToSyncNames [r1rec, r2rec] envCloneSync.localDirs).length = 1
      ∧ (3 : Nat) ≠ 1 + 1 := by
  decide

/-- C4 (amended): the totals hold per phase — clone outcomes equal the
number of plan-time missing records, while sync outcomes equal the number
of git directories present *at sync time* (every pre-existing git
directory, including those absent from the desired set, plus every
successfully cloned one); in a fresh-clone run there are no sync outcomes
at all. -/
theorem outcome_totals_amended (fuel : Nat) (env : RunEnv) (org ts prev : String)
    (repos : List RepoRecord) (msgs : List String)
    (hapi : get_repositories fuel env.api org env.token = some (repos, msgs)) :
    ∃ res, runMain fuel env org ts prev = some res
      ∧ res.cloneSuccessful + res.cloneFailed = res.cloneList.length
      ∧ (repos ≠ [] → env.localDirs.filter isGitDir ≠ [] →
          res.syncSuccessful + res.syncFailed = (res.finalDirs.filter isGitDir).length)
      ∧ (env.localDirs.filter isGitDir = [] →
          res.syncSuccessful + res.syncFailed = 0) := by
  by_cases hne : repos = []
  · subst hne
    refine ⟨emptyResult env org ts [] msgs, runMain_eq fuel env org ts prev _ _ hapi,
      rfl, ?_, fun _ => rfl⟩
    intro h
    exact absurd rfl h
  · by_cases hloc : env.localDirs.filter isGitDir = []
    · refine ⟨freshResult env org ts repos msgs, ?_, ?_, ?_, fun _ => rfl⟩
      · rw [runMain_eq fuel env org ts prev repos msgs hapi,
          runBody_fresh env org ts repos msgs hne hloc]
      · exact cloneLoop_counts env.token env.cloneWorld repos
      · intro _ h
        exact absurd hloc h
    · refine ⟨existingResult env org ts repos msgs, ?_, ?_, ?_, ?_⟩
      · rw [runMain_eq fuel env org ts prev repos msgs hapi,
          runBody_existing env org ts repos msgs hne hloc]
      · exact clonePhaseOf_counts env repos
      · intro _ _
        exact syncLoop_counts env.syncWorld (dirsAfterOf env repos)
      · intro h
        exact absurd h hloc

/-- C4 witness: the amended statement evaluated in the clone-then-sync
world. -/
theorem outcome_totals_amended_witness :
    ∃ res, runMain 10 envCloneSync "DeltaE" "ts" "" = some res
      ∧ res.cloneSuccessful + res.cloneFailed = res.cloneList.length
      ∧ ([r1rec, r2rec] ≠ ([] : List RepoRecord) →
          envCloneSync.localDirs.filter isGitDir ≠ [] →
          res.syncSuccessful + res.syncFailed = (res.finalDirs.filter isGitDir).length)
      ∧ (envCloneSync.localDirs.filter isGitDir = [] →
          res.syncSuccessful + res.syncFailed = 0) :=
  outcome_totals_amended 10 envCloneSync "DeltaE" "ts" "" [r1rec, r2rec]
    [fetchingMsg "DeltaE", foundMsg 2] (by decide)

/-- C5 witness: the pagination theorem evaluated at a concrete desired set
of 150 pairwise distinct records. -/
theorem get_repositories_pagination_witness :
    (chunkApi d150 1 100).repos = d150.take 100
      ∧ (chunkApi d150 2 100).repos.length = 50
      ∧ get_repositories 10 (chunkApi d150) "DeltaE" none =
          some (d150, [fetchingMsg "DeltaE", foundMsg 150]) :=
  get_repositories_pagination d150 (by simp [d150])
